import Mathlib

/-!
Verification development for the CODE_SMARTY analysis backend
(src/backend/app.py).

The Python source is shallowly embedded: pure string/regex computations are
translated directly into executable Lean functions, and every interaction
with the outside world (subprocess tool invocations, the Docker engine, the
generative LLM backend, the filesystem walk) is represented by an explicit
oracle record supplying the outcome of that interaction (its output string,
or the exception it raised).  Temporary-file lifecycle is tracked by each
operation returning, next to its result, the list of temp artifacts that
still exist when the operation returns.

Python's `re` semantics for the patterns used by the source are modelled by
a Brzozowski-derivative matcher over character classes; the two
`findall`-with-capture rules are modelled by dedicated scanning functions.
The java fallback pattern writes a backreference `\1` although it declares
no capture group, so its compilation raises `re.error` on every call that
reaches it — that call is modelled as an `Except.error`, and the functions
it can reach are `Except`-valued accordingly.  All characters are treated
at ASCII level, matching the inputs the service feeds these regexes.
-/

/-! ## Character classes (Python `\s`, `\w`, `\d` at ASCII level) -/

/-- Python regex `\s` (ASCII range): space, tab, newline, CR, VT, FF. -/
def pySpace (c : Char) : Bool :=
  c = ' ' || c = '\t' || c = '\n' || c = '\r' || c = Char.ofNat 11 || c = Char.ofNat 12

/-- Python regex `\w` (ASCII range): letters, digits, underscore. -/
def pyWord (c : Char) : Bool := c.isAlphanum || c = '_'

/-- Python regex `\d`. -/
def pyDigit (c : Char) : Bool := c.isDigit

/-- The character `\x7b` (left curly bracket), needed by one detection rule. -/
def lbraceChar : Char := Char.ofNat 123

/-! ## Python string helpers -/

/-- Does the list start with the given pattern?  (Helper for substring tests.) -/
def startsList (p : List Char) : List Char → Bool :=
  match p with
  | [] => fun _ => true
  | a :: as =>
    fun s =>
      match s with
      | [] => false
      | b :: bs => a == b && startsList as bs

/-- Is `sub` a contiguous sublist of `s`?  Models Python's `sub in s`. -/
def containsList (sub : List Char) : List Char → Bool
  | [] => startsList sub []
  | c :: t => startsList sub (c :: t) || containsList sub t

/-- Python's `sub in s` on strings. -/
def pyIn (sub s : String) : Bool := containsList sub.data s.data

/-- Python's `str.strip()` (ASCII whitespace). -/
def pyStrip (s : String) : String :=
  String.mk ((((s.data.dropWhile pySpace).reverse).dropWhile pySpace).reverse)

/-- Python's `str.lower()` (ASCII). -/
def pyLower (s : String) : String := String.mk (s.data.map Char.toLower)

/-- Python's `str.upper()` (ASCII). -/
def pyUpper (s : String) : String := String.mk (s.data.map Char.toUpper)

/-- Python's `int()` on a string of decimal digits. -/
def digitsToNat (l : List Char) : Nat :=
  l.foldl (fun n c => n * 10 + (c.toNat - 48)) 0

/-- Python's `sep.join(items)`. -/
def joinSep (sep : String) : List String → String
  | [] => ""
  | [x] => x
  | x :: y :: rest => x ++ sep ++ joinSep sep (y :: rest)

/-- Association-list lookup, modelling Python dict access by key. -/
def lookupStr (m : List (String × String)) (k : String) : Option String :=
  match m with
  | [] => none
  | (k', v) :: rest => if k' = k then some v else lookupStr rest k

/-! ## A Brzozowski-derivative regex engine

Covers the constructs appearing in the source's patterns: literals,
character classes, concatenation, alternation, and (unbounded) repetition.
`reSearch` models Python's `re.search` truthiness: does any substring
match? -/

inductive RE : Type where
  | emp : RE
  | eps : RE
  | cls : (Char → Bool) → RE
  | seq : RE → RE → RE
  | alt : RE → RE → RE
  | star : RE → RE

/-- Does the regex accept the empty string? -/
def RE.nullable : RE → Bool
  | .emp => false
  | .eps => true
  | .cls _ => false
  | .seq a b => a.nullable && b.nullable
  | .alt a b => a.nullable || b.nullable
  | .star _ => true

/-- Smart sequence constructor (keeps derivative terms small). -/
def RE.rseq : RE → RE → RE
  | .emp, _ => .emp
  | .eps, b => b
  | a, b => .seq a b

/-- Smart alternation constructor. -/
def RE.ralt : RE → RE → RE
  | .emp, b => b
  | a, .emp => a
  | a, b => .alt a b

/-- Brzozowski derivative of a regex by one character. -/
def RE.deriv : RE → Char → RE
  | .emp, _ => .emp
  | .eps, _ => .emp
  | .cls f, c => if f c then .eps else .emp
  | .seq a b, c =>
    if a.nullable then RE.ralt (RE.rseq (a.deriv c) b) (b.deriv c)
    else RE.rseq (a.deriv c) b
  | .alt a b, c => RE.ralt (a.deriv c) (b.deriv c)
  | .star a, c => RE.rseq (a.deriv c) (.star a)

/-- Does the regex accept the whole character list? -/
def RE.fullMatch (r : RE) : List Char → Bool
  | [] => r.nullable
  | c :: s => RE.fullMatch (r.deriv c) s

/-- Does the regex accept some prefix of the character list? -/
def RE.prefixHit (r : RE) : List Char → Bool
  | [] => r.nullable
  | c :: s => r.nullable || RE.prefixHit (r.deriv c) s

/-- Does the regex accept some contiguous substring?  (Python `re.search`.) -/
def RE.reSearch (r : RE) : List Char → Bool
  | [] => r.nullable
  | c :: s => r.prefixHit (c :: s) || r.reSearch s

/-- `re.search(pattern, code)` truthiness on a Lean `String`. -/
def reMatch (r : RE) (code : String) : Bool := r.reSearch code.data

/-! ### Pattern building blocks -/

/-- A single literal character. -/
def RE.chr (c : Char) : RE := RE.cls (fun x => x == c)

/-- A literal string, from its characters. -/
def RE.litL (l : List Char) : RE := l.foldr (fun c r => RE.seq (RE.chr c) r) RE.eps

/-- A literal string. -/
def RE.lit (s : String) : RE := RE.litL s.data

/-- Concatenation of a list of regexes. -/
def RE.rcat (l : List RE) : RE := l.foldr RE.seq RE.eps

/-- `\s*` -/
def wsStar : RE := RE.star (RE.cls pySpace)

/-- `\s+` -/
def wsPlus : RE := RE.seq (RE.cls pySpace) wsStar

/-- `\w+` -/
def wdPlus : RE := RE.seq (RE.cls pyWord) (RE.star (RE.cls pyWord))

/-- `.*` — any characters except newline (Python `.`). -/
def dotStar : RE := RE.star (RE.cls (fun c => !(c == '\n')))

/-! ## Language detection (src/backend/app.py, `detect_language_with_regex`)

Each pattern below transcribes one `re.search` pattern from the source. -/

/-- `def\s+\w+\s*\(.*\)\s*:` -/
def pyPat1 : RE :=
  RE.rcat [RE.lit "def", wsPlus, wdPlus, wsStar, RE.chr '(', dotStar, RE.chr ')', wsStar, RE.chr ':']

/-- `import\s+\w+` -/
def pyPat2 : RE := RE.rcat [RE.lit "import", wsPlus, wdPlus]

/-- `from\s+\w+\s+import` -/
def pyPat3 : RE := RE.rcat [RE.lit "from", wsPlus, wdPlus, wsPlus, RE.lit "import"]

/-- `print\s*\(` -/
def pyPat4 : RE := RE.rcat [RE.lit "print", wsStar, RE.chr '(']

/-- `public\s+class\s+\w+` -/
def javaPat1 : RE := RE.rcat [RE.lit "public", wsPlus, RE.lit "class", wsPlus, wdPlus]

/-- `public\s+static\s+void\s+main` -/
def javaPat2 : RE :=
  RE.rcat [RE.lit "public", wsPlus, RE.lit "static", wsPlus, RE.lit "void", wsPlus, RE.lit "main"]

/-- `System\.out\.println` -/
def javaPat3 : RE := RE.lit "System.out.println"

/-- `import\s+java\.` -/
def javaPat4 : RE := RE.rcat [RE.lit "import", wsPlus, RE.lit "java."]

/-- `#include\s*<(iostream|vector|string|algorithm)>` -/
def cppPat1 : RE :=
  RE.rcat [RE.lit "#include", wsStar, RE.chr '<',
    RE.alt (RE.lit "iostream") (RE.alt (RE.lit "vector") (RE.alt (RE.lit "string") (RE.lit "algorithm"))),
    RE.chr '>']

/-- `std::` -/
def cppPat2 : RE := RE.lit "std::"

/-- `cout\s*<<` -/
def cppPat3 : RE := RE.rcat [RE.lit "cout", wsStar, RE.lit "<<"]

/-- `namespace` -/
def cppPat4 : RE := RE.lit "namespace"

/-- `class\s+\w+\s*\x7b` (class name followed by an opening curly bracket) -/
def cppPat5 : RE := RE.rcat [RE.lit "class", wsPlus, wdPlus, wsStar, RE.chr lbraceChar]

/-- `#include\s*<(stdio\.h|stdlib\.h|string\.h)>` -/
def cPat1 : RE :=
  RE.rcat [RE.lit "#include", wsStar, RE.chr '<',
    RE.alt (RE.lit "stdio.h") (RE.alt (RE.lit "stdlib.h") (RE.lit "string.h")),
    RE.chr '>']

/-- `printf\s*\(` -/
def cPat2 : RE := RE.rcat [RE.lit "printf", wsStar, RE.chr '(']

/-- `malloc\s*\(` -/
def cPat3 : RE := RE.rcat [RE.lit "malloc", wsStar, RE.chr '(']

/-- `void\s+\w+\s*\(` -/
def cPat4 : RE := RE.rcat [RE.lit "void", wsPlus, wdPlus, wsStar, RE.chr '(']

/-- The python-marker disjunction of the source's first `if`. -/
def pythonMarkers (code : String) : Bool :=
  reMatch pyPat1 code || reMatch pyPat2 code || reMatch pyPat3 code || reMatch pyPat4 code

/-- The java-marker disjunction of the source's first `elif`. -/
def javaMarkers (code : String) : Bool :=
  reMatch javaPat1 code || reMatch javaPat2 code || reMatch javaPat3 code || reMatch javaPat4 code

/-- The C++-marker disjunction of the source's second `elif`. -/
def cppMarkers (code : String) : Bool :=
  reMatch cppPat1 code || reMatch cppPat2 code || reMatch cppPat3 code ||
    reMatch cppPat4 code || reMatch cppPat5 code

/-- The C-marker disjunction of the source's third `elif`. -/
def cMarkers (code : String) : Bool :=
  reMatch cPat1 code || reMatch cPat2 code || reMatch cPat3 code || reMatch cPat4 code

/-- `detect_language_with_regex` from the source: python markers first, then
java, then C++, then C, with `python` as the final default. -/
def detect_language_with_regex (code : String) : String :=
  if pythonMarkers code then "python"
  else if javaMarkers code then "java"
  else if cppMarkers code then "cpp"
  else if cMarkers code then "c"
  else "python"

/-- `detect_language_with_llm`: primary path normalizes the backend's reply
(strip, lower, membership in the closed set, else `unknown`); on a backend
exception (`none`) it falls back to the regex detector.  The oracle `llm`
holds the backend's reply, or `none` for an exception. -/
def detect_language_with_llm (llm : Option String) (code : String) : String :=
  match llm with
  | some response =>
    let language := pyLower (pyStrip response)
    if language = "python" || language = "java" || language = "c" || language = "cpp"
    then language else "unknown"
  | none => detect_language_with_regex code

/-! ## Conceptual-error scan (src/backend/app.py, `run_c_static_analysis`,
pattern section, lines 124-165) -/

/-- `\w+\s*=\s*NULL\s*;\s*.*\w+\s*->\s*\w+` -/
def nullPat1 : RE :=
  RE.rcat [wdPlus, wsStar, RE.chr '=', wsStar, RE.lit "NULL", wsStar, RE.chr ';', wsStar,
    dotStar, wdPlus, wsStar, RE.lit "->", wsStar, wdPlus]

/-- `\w+\s*=\s*NULL\s*;\s*.*\*\w+` -/
def nullPat2 : RE :=
  RE.rcat [wdPlus, wsStar, RE.chr '=', wsStar, RE.lit "NULL", wsStar, RE.chr ';', wsStar,
    dotStar, RE.chr '*', wdPlus]

/-- `(strcpy|strcat)\s*\(\s*\w+\s*,` -/
def bufPat1 : RE :=
  RE.rcat [RE.alt (RE.lit "strcpy") (RE.lit "strcat"), wsStar, RE.chr '(', wsStar, wdPlus,
    wsStar, RE.chr ',']

/-- `strn(cpy|cat)` -/
def bufPat2 : RE := RE.rcat [RE.lit "strn", RE.alt (RE.lit "cpy") (RE.lit "cat")]

/-- `for\s*\(\s*.*;\s*;` -/
def infPat : RE :=
  RE.rcat [RE.lit "for", wsStar, RE.chr '(', wsStar, dotStar, RE.chr ';', wsStar, RE.chr ';']

/-- `free\s*\(\s*\w+\s*\)\s*;.*\w+\s*->` -/
def danPat1 : RE :=
  RE.rcat [RE.lit "free", wsStar, RE.chr '(', wsStar, wdPlus, wsStar, RE.chr ')', wsStar,
    RE.chr ';', dotStar, wdPlus, wsStar, RE.lit "->"]

/-- `free\s*\(\s*\w+\s*\)\s*;.*\*\w+` -/
def danPat2 : RE :=
  RE.rcat [RE.lit "free", wsStar, RE.chr '(', wsStar, wdPlus, wsStar, RE.chr ')', wsStar,
    RE.chr ';', dotStar, RE.chr '*', wdPlus]

/-! ### The uninitialized-variable scanner

Models `re.findall(r'(int|float|double|char|long)\s+(\w+)\s*;(?!\s*\2\s*=)', code)`.
The five type keywords start with distinct characters and the classes
`\s`/`\w` are disjoint, so the backtracking match at each position is
deterministic; `re.findall` is the usual leftmost, non-overlapping scan. -/

/-- Try each type-keyword alternative at the start of `s`, returning the
remainder after the keyword. -/
def typeKwHit (s : List Char) : Option (List Char) :=
  if startsList "int".data s then some (s.drop 3)
  else if startsList "float".data s then some (s.drop 5)
  else if startsList "double".data s then some (s.drop 6)
  else if startsList "char".data s then some (s.drop 4)
  else if startsList "long".data s then some (s.drop 4)
  else none

/-- The negative lookahead `(?!\s*\2\s*=)` applied after the semicolon:
does an assignment to the just-matched name follow? -/
def lookaheadAssign (name : List Char) (s : List Char) : Bool :=
  let s1 := s.dropWhile pySpace
  startsList name s1 &&
    (match (s1.drop name.length).dropWhile pySpace with
     | c :: _ => c == '='
     | [] => false)

/-- Match the declaration pattern at the start of `s`; on success return the
captured variable name and the remainder after the semicolon. -/
def tryUninitAt (s : List Char) : Option (List Char × List Char) :=
  match typeKwHit s with
  | none => none
  | some s1 =>
    if (s1.takeWhile pySpace).isEmpty then none
    else
      let s2 := s1.dropWhile pySpace
      let name := s2.takeWhile pyWord
      if name.isEmpty then none
      else
        match (s2.dropWhile pyWord).dropWhile pySpace with
        | c :: s4 =>
          if c == ';' then
            if lookaheadAssign name s4 then none else some (name, s4)
          else none
        | [] => none

/-- Leftmost non-overlapping scan collecting captured names.  Fuel is the
length of the scanned list; each step consumes at least one character, so
the fuel never runs out before the list does. -/
def uninitScanF : Nat → List Char → List (List Char)
  | 0, _ => []
  | _ + 1, [] => []
  | fuel + 1, c :: rest =>
    match tryUninitAt (c :: rest) with
    | some (name, t) => name :: uninitScanF fuel t
    | none => uninitScanF fuel rest

/-- The `var_names` list of the source's uninitialized-variable rule. -/
def uninitNames (code : String) : List String :=
  (uninitScanF code.data.length code.data).map String.mk

/-! ### The array-bounds scanner

Models `re.findall(r'(\w+)\s*\[\s*(\d+)\s*\]', code)` (declaration/usage
collection), the per-array `re.search`, and the per-array
`re.findall(rf'NAME\s*\[\s*(\d+)\s*\]', code)` index collection. -/

/-- Match `(\w+)\s*\[\s*(\d+)\s*\]` at the start of `s`; return the captured
name, the captured digits, and the remainder after the closing bracket. -/
def tryArrDeclAt (s : List Char) : Option ((List Char × List Char) × List Char) :=
  let name := s.takeWhile pyWord
  if name.isEmpty then none
  else
    match (s.dropWhile pyWord).dropWhile pySpace with
    | c :: s2 =>
      if c == '[' then
        let s3 := s2.dropWhile pySpace
        let digits := s3.takeWhile pyDigit
        if digits.isEmpty then none
        else
          match (s3.dropWhile pyDigit).dropWhile pySpace with
          | c2 :: s5 => if c2 == ']' then some ((name, digits), s5) else none
          | [] => none
      else none
    | [] => none

/-- Leftmost non-overlapping scan collecting `(name, size-digits)` pairs. -/
def arrDeclScanF : Nat → List Char → List (List Char × List Char)
  | 0, _ => []
  | _ + 1, [] => []
  | fuel + 1, c :: rest =>
    match tryArrDeclAt (c :: rest) with
    | some (d, t) => d :: arrDeclScanF fuel t
    | none => arrDeclScanF fuel rest

/-- The source's `array_decls` list. -/
def arrayDecls (code : String) : List (String × String) :=
  (arrDeclScanF code.data.length code.data).map (fun d => (String.mk d.1, String.mk d.2))

/-- Match `NAME\s*\[\s*(\d+)\s*\]` (for a fixed literal name) at the start of
`s`; return the captured digits and the remainder. -/
def tryIdxAt (name : List Char) (s : List Char) : Option (List Char × List Char) :=
  if startsList name s then
    match (s.drop name.length).dropWhile pySpace with
    | c :: s2 =>
      if c == '[' then
        let s3 := s2.dropWhile pySpace
        let digits := s3.takeWhile pyDigit
        if digits.isEmpty then none
        else
          match (s3.dropWhile pyDigit).dropWhile pySpace with
          | c2 :: s5 => if c2 == ']' then some (digits, s5) else none
          | [] => none
      else none
    | [] => none
  else none

/-- Leftmost non-overlapping scan collecting the captured index digits for a
fixed array name. -/
def idxScanF (name : List Char) : Nat → List Char → List (List Char)
  | 0, _ => []
  | _ + 1, [] => []
  | fuel + 1, c :: rest =>
    match tryIdxAt name (c :: rest) with
    | some (digits, t) => digits :: idxScanF name fuel t
    | none => idxScanF name fuel rest

/-- The source's `indices` list for one array name. -/
def idxScan (name : List Char) (code : List Char) : List (List Char) :=
  idxScanF name code.length code

/-! ### The findings messages and the aggregated conceptual scan -/

/-- Finding text of the null-pointer rule. -/
def nullPtrMsg : String := "Potential NULL pointer dereference detected"

/-- Finding text of the memory-leak rule. -/
def memLeakMsg : String := "Potential memory leak: malloc used without corresponding free"

/-- Finding text of the uninitialized-variable rule. -/
def uninitMsg (names : List String) : String :=
  "Potentially uninitialized variables: " ++ joinSep ", " names

/-- Finding text of the buffer-overflow rule. -/
def bufMsg : String :=
  "Potential buffer overflow risk: using strcpy/strcat without bounds checking"

/-- Finding text of the infinite-loop rule. -/
def infLoopMsg : String := "Potential infinite loop: missing loop condition"

/-- Finding text of the dangling-pointer rule. -/
def danMsg : String := "Potential use of dangling pointer after free"

/-- Finding text of the array-out-of-bounds rule. -/
def oobMsgStr (name idx size : String) : String :=
  "Potential array out of bounds: " ++ (name ++ ("[" ++ (idx ++ ("] exceeds size " ++ size))))

/-- The inner loop of the array rule: for each collected index, emit the
message when the literal index is all digits and is `>=` the declared size. -/
def oobIdxMsgs (d : String × String) : List (List Char) → List String
  | [] => []
  | idx :: rest =>
    (if (!idx.isEmpty && idx.all pyDigit) && digitsToNat idx ≥ digitsToNat d.2.data
     then [oobMsgStr d.1 (String.mk idx) d.2] else [])
      ++ oobIdxMsgs d rest

/-- The per-declaration body of the array rule: the guarding `re.search`
(the index pattern without the capture) and then the index loop. -/
def oobOne (d : String × String) (code : String) : List String :=
  if (idxScan d.1.data code.data).isEmpty then []
  else oobIdxMsgs d (idxScan d.1.data code.data)

/-- The outer loop of the array rule over all collected declarations. -/
def oobAux : List (String × String) → String → List String
  | [], _ => []
  | d :: ds, code => oobOne d code ++ oobAux ds code

/-- All array-out-of-bounds messages for a code blob. -/
def oobMsgs (code : String) : List String := oobAux (arrayDecls code) code

/-- The `conceptual_errors` list built by `run_c_static_analysis`, with the
source's rule order: null pointer, memory leak, uninitialized variables,
buffer overflow, infinite loop, dangling pointer, array bounds. -/
def conceptualErrors (code : String) : List String :=
  (if reMatch nullPat1 code || reMatch nullPat2 code then [nullPtrMsg] else [])
    ++ ((if pyIn "malloc" code && !(pyIn "free" code) then [memLeakMsg] else [])
    ++ ((if (uninitNames code).isEmpty then [] else [uninitMsg (uninitNames code)])
    ++ ((if reMatch bufPat1 code && !(reMatch bufPat2 code) then [bufMsg] else [])
    ++ ((if reMatch infPat code then [infLoopMsg] else [])
    ++ ((if reMatch danPat1 code || reMatch danPat2 code then [danMsg] else [])
    ++ oobMsgs code)))))

/-- The `results["conceptual_errors"]` entry: the newline join of the fired
rules, or the no-issues sentinel. -/
def conceptualValue (code : String) : String :=
  if (conceptualErrors code).isEmpty then "No conceptual issues detected"
  else joinSep "\n" (conceptualErrors code)

/-! ## The C/C++ static-analysis dispatcher (src/backend/app.py,
`run_c_static_analysis`, tool layers)

Each external-tool layer is driven by an oracle describing what the host
and the tool did: whether the binary is resolvable, the tool's stderr, and
whether the invocation raised an exception (`some msg` carries `str(e)`;
for the valgrind run this includes the 5-second `TimeoutExpired`).  Every
layer returns its report string together with the list of temp artifacts
that still exist when the layer finishes: the `os.unlink` calls of the
source sit inside the `try` block, so a raising invocation jumps to the
`except` handler and skips them. -/

structure COracle where
  cppcheckAvailable : Bool
  cppcheckRaises : Option String
  cppcheckStderr : String
  clangAvailable : Bool
  clangRaises : Option String
  clangStderr : String
  valgrindAvailable : Bool
  isWindows : Bool
  compileRaises : Option String
  compileOk : Bool
  compileStderr : String
  valgrindRaises : Option String
  valgrindStderr : String

/-- Layer 1: cppcheck.  Writes a temp source file, runs the tool, reads
stderr (empty stderr means the no-issues sentinel), then unlinks the temp
file — unless the invocation raised, in which case the handler stores the
error text and the temp file is never removed. -/
def cppcheckStep (o : COracle) : String × List String :=
  if o.cppcheckAvailable then
    match o.cppcheckRaises with
    | some e => ("Error running cppcheck: " ++ e, ["cppcheck_tmp"])
    | none =>
      ((if o.cppcheckStderr = "" then "No issues detected by cppcheck" else o.cppcheckStderr), [])
  else ("Tool not available (cppcheck is not installed or not in PATH)", [])

/-- Layer 2: the clang syntax-only analyzer; same shape as layer 1. -/
def clangStep (o : COracle) : String × List String :=
  if o.clangAvailable then
    match o.clangRaises with
    | some e => ("Error running clang static analyzer: " ++ e, ["clang_tmp"])
    | none =>
      ((if o.clangStderr = "" then "No issues detected by clang static analyzer"
        else o.clangStderr), [])
  else ("Tool not available (clang/clang++ is not installed or not in PATH)", [])

/-- Layer 3: valgrind.  Runs only when the binary is available and the host
is not Windows; compiles the temp source (a raising compile leaks the
source), then runs valgrind with a 5-second timeout (a raising run — the
timeout included — leaks both the source and the compiled binary); on the
non-raising paths both `os.unlink` calls execute. -/
def valgrindStep (o : COracle) : String × List String :=
  if o.valgrindAvailable && !o.isWindows then
    match o.compileRaises with
    | some e => ("Error running valgrind: " ++ e, ["valgrind_src"])
    | none =>
      if o.compileOk then
        match o.valgrindRaises with
        | some e => ("Error running valgrind: " ++ e, ["valgrind_src", "valgrind_bin"])
        | none =>
          ((if o.valgrindStderr = "" then "No memory issues detected" else o.valgrindStderr), [])
      else ("Compilation failed: " ++ o.compileStderr, [])
  else if o.isWindows then ("Tool not available (valgrind does not work on Windows)", [])
  else ("Tool not available (valgrind is not installed or not in PATH)", [])

/-- `run_c_static_analysis(code, is_cpp)`: the conceptual scan followed by
the three tool layers, producing the findings mapping in dict-insertion
order, paired with all temp artifacts left behind.  `is_cpp` selects file
suffixes and tool binaries in the source; those choices are absorbed by the
oracle, so the flag does not influence the modelled outputs. -/
def run_c_static_analysis (o : COracle) (is_cpp : Bool) (code : String) :
    List (String × String) × List String :=
  ([("conceptual_errors", conceptualValue code),
    ("cppcheck", (cppcheckStep o).1),
    ("clang_analyze", (clangStep o).1),
    ("memory_analysis", (valgrindStep o).1)],
   (cppcheckStep o).2 ++ ((clangStep o).2 ++ (valgrindStep o).2))

/-! ## The Python static-analysis dispatcher (src/backend/app.py,
`run_static_analysis`)

Both tool invocations sit in their own `try/except` whose handler stores
`str(e)`, and the `os.unlink` follows both blocks unconditionally, so the
temp file is removed on every path. -/

structure PyOracle where
  flake8Raises : Option String
  flake8Out : String
  mypyRaises : Option String
  mypyOut : String

/-- `run_static_analysis(code)`: flake8 then mypy against a temp file; a
non-empty raw output is stripped, an empty one becomes the "No issues"
sentinel; the temp file never leaks. -/
def run_static_analysis (o : PyOracle) (code : String) :
    List (String × String) × List String :=
  ([("flake8",
      match o.flake8Raises with
      | some e => e
      | none => if o.flake8Out = "" then "No issues" else pyStrip o.flake8Out),
    ("mypy",
      match o.mypyRaises with
      | some e => e
      | none => if o.mypyOut = "" then "No issues" else pyStrip o.mypyOut)],
   [])

/-! ## Sandboxed execution and its fallback (src/backend/app.py,
`run_in_docker` / `run_code_fallback`) -/

/-- Oracle for one execution attempt: the startup capability flag
(`docker_available`), whether `docker.from_env()` inside `run_in_docker`
raised, whether workspace setup (temp dir / file write) raised, whether the
container-creation/run/log step raised (`some msg`), the decoded container
logs, and the outcome of `ast.parse` used by the Python fallback (`none`
for a clean parse, `some e` for a `SyntaxError`). -/
structure ExecOracle where
  dockerAvailable : Bool
  fromEnvRaises : Bool
  setupRaises : Bool
  containerRaises : Option String
  containerLogs : String
  pyParse : Option String

/-- The `str(e)` of the `re.error` raised by the java leak check.  The
source pattern `\w+\s*=\s*new\s+\w+.*;\s*.*\1\s*=\s*null` contains no
capture group, so its `\1` is an invalid group reference: compiling the
pattern raises `re.error` on every call that reaches the `re.search`. -/
def javaLeakCheckError : String := "invalid group reference 1 at position 28"

/-- The lines the python branch of `run_code_fallback` appends after its
header: syntax-check line, then the two pattern warnings. -/
def pyFallbackTail (parse : Option String) (code : String) : String :=
  (match parse with
   | none => "✓ No syntax errors detected\n"
   | some e => "✗ Syntax error: " ++ e ++ "\n")
    ++ ((if pyIn "open(" code && !(pyIn "close(" code) && !(pyIn "with open" code)
        then "⚠ Warning: File opened but not explicitly closed\n" else "")
    ++ (if pyIn "import os" code && pyIn "os.system" code
        then "⚠ Warning: Potentially unsafe system command execution\n" else ""))

/-- Body of the python branch of `run_code_fallback`. -/
def pyFallbackBody (parse : Option String) (code : String) : String :=
  "Python code analysis (without execution):\n" ++ pyFallbackTail parse code

/-- The warning lines the c/cpp branch of `run_code_fallback` appends after
its header: the runtime-risk subset of the conceptual rules. -/
def cFallbackTail (code : String) : String :=
  (if reMatch nullPat1 code || reMatch nullPat2 code
   then "⚠ Warning: Potential NULL pointer dereference detected\n" else "")
    ++ ((if pyIn "malloc" code && !(pyIn "free" code)
        then "⚠ Warning: Potential memory leak: malloc used without corresponding free\n" else "")
    ++ ((if (uninitNames code).isEmpty then ""
        else "⚠ Warning: Potentially uninitialized variables: "
          ++ joinSep ", " (uninitNames code) ++ "\n")
    ++ ((if reMatch bufPat1 code && !(reMatch bufPat2 code)
        then "⚠ Warning: Potential buffer overflow risk: using strcpy/strcat without bounds checking\n"
        else "")
    ++ (if reMatch infPat code
        then "⚠ Warning: Potential infinite loop: missing loop condition\n" else ""))))

/-- Body of the c/cpp branch of `run_code_fallback`: upper-cased language
header, then the warnings. -/
def cFallbackBody (code language : String) : String :=
  pyUpper language ++ (" code analysis (without execution):\n" ++ cFallbackTail code)

/-- The `.equals(null)` warning line of the java branch, appended before
the raising leak check. -/
def javaFallbackTail (code : String) : String :=
  if pyIn ".equals(null)" code
  then "⚠ Warning: Potential NullPointerException: calling .equals() on null\n" else ""

/-- Body of the java branch of `run_code_fallback`.  The leak check is
guarded by two substring tests joined by a short-circuiting `and`; whenever
both hold, the `re.search` with the invalid backreference is reached and
raises, discarding the partial result, so the branch either raises or
returns the header plus the `.equals(null)` warning — the leak warning can
never be appended. -/
def javaFallbackBody (code : String) : Except String String :=
  if pyIn "new" code && pyIn "= null" code then Except.error javaLeakCheckError
  else Except.ok ("Java code analysis (without execution):\n" ++ javaFallbackTail code)

/-- The source's final `return result if result else "No issues..."` guard
(reached only when no branch raised). -/
def fallbackWrap (result : String) : String :=
  if result = "" then "No issues detected by static analysis" else result

/-- `run_code_fallback(code, language)`: analysis without execution, per
language, with the source's final truthiness guard on the non-raising
paths; the java branch's `re.error` propagates to the caller. -/
def run_code_fallback (parse : Option String) (code language : String) : Except String String :=
  match (if language = "python" then Except.ok (pyFallbackBody parse code)
         else if language = "c" || language = "cpp" then Except.ok (cFallbackBody code language)
         else if language = "java" then javaFallbackBody code
         else Except.ok ("Analysis for " ++ language ++ " is not supported in fallback mode")) with
  | Except.error e => Except.error e
  | Except.ok result => Except.ok (fallbackWrap result)

/-- `run_in_docker(code, language)`.  The capability flag and a raising
`docker.from_env()` or workspace setup transfer control to the fallback
(the first call is a direct `return`, the second sits inside the outer
`except` handler; in both places an exception raised by the fallback
itself — the java `re.error` — propagates out of `run_in_docker`).  An
unsupported language returns early inside the `with` block; an exception
inside container creation/run/log retrieval is caught by the inner
`except`, which stores a `Runtime error:` payload instead of falling back;
empty logs become "No output". -/
def run_in_docker (o : ExecOracle) (code language : String) : Except String String :=
  if !o.dockerAvailable then run_code_fallback o.pyParse code language
  else if o.fromEnvRaises || o.setupRaises then run_code_fallback o.pyParse code language
  else if language = "python" || language = "java" || language = "c" || language = "cpp" then
    match o.containerRaises with
    | some e => Except.ok ("Runtime error: " ++ e)
    | none => Except.ok (if o.containerLogs = "" then "No output" else o.containerLogs)
  else Except.ok "Unsupported language"

/-! ## Suggestion synthesis (src/backend/app.py, `ai_fix_agent`)

The oracle `llm` is the generative backend's reply (`none` for an exception
of any kind).  The primary path returns the stripped reply; the fallback
path assembles the deterministic report from the already-collected
findings.  The prompt text itself only travels to the backend and does not
appear in the return value, so it is absorbed by the oracle. -/

def ai_fix_agent (llm : Option String) (code : String) (issues : List (String × String))
    (runtime language : String) : String :=
  match llm with
  | some response => pyStrip response
  | none =>
    "AUTOMATED CODE ANALYSIS (AI service unavailable)\n\n"
      ++ ((if language = "c" || language = "cpp" then
            match lookupStr issues "conceptual_errors" with
            | some v =>
              if v = "No conceptual issues detected" then ""
              else "CONCEPTUAL ISSUES:\n" ++ v ++ "\n\n"
            | none => ""
          else "")
      ++ ((if runtime ≠ "" ∧ runtime ≠ "No output" ∧ pyIn "successfully" runtime = false
          then "RUNTIME ISSUES:\n" ++ runtime ++ "\n\n" else "")
      ++ ((if language = "python" then
            (match lookupStr issues "flake8" with
             | some v => if v = "No issues" then "" else "STATIC ANALYSIS (flake8):\n" ++ v ++ "\n\n"
             | none => "")
            ++ (match lookupStr issues "mypy" with
                | some v => if v = "No issues" then "" else "TYPE CHECKING (mypy):\n" ++ v ++ "\n\n"
                | none => "")
          else "")
      ++ ("SUGGESTED IMPROVEMENTS:\n- Fix any identified conceptual errors\n- Ensure proper error handling\n- Follow language best practices\n"
      ++ (if language = "c" || language = "cpp"
          then "- Check for memory leaks\n- Validate pointer usage\n- Consider using safer string functions\n"
          else "")))))

/-! ## The single-submission endpoint (src/backend/app.py, `analyze`)

All external collaborators for one request are bundled in `AnalyzeDeps`.
The returned pair carries the HTTP outcome (a 400 `HTTPException` as
`Except.error (status, detail)`) and an effect log naming which pipeline
stages actually ran, in order. -/

structure AnalyzeDeps where
  llmDetect : Option String
  pyO : PyOracle
  cO : COracle
  eO : ExecOracle
  llmFix : Option String

/-- The terminal per-submission record `{language, issues, runtime, suggestions}`. -/
structure AnalysisRecord where
  language : String
  issues : List (String × String)
  runtime : String
  suggestions : String

/-- `POST /analyze`: reject blank code with a 400; resolve the language and
reject `unknown` with a 400; otherwise dispatch static analysis by
language, execute, synthesize, and assemble the result record.  The outer
`Except` is the handler's own `HTTPException` rejection (status, detail);
the inner `Except` is the body's computation, which yields the record
unless an exception — the java fallback's `re.error` — propagates uncaught
out of the handler (the execution call at app.py:550 is unprotected). -/
def analyze (d : AnalyzeDeps) (code : String) :
    Except (Nat × String) (Except String AnalysisRecord) × List String :=
  if pyStrip code = "" then (Except.error (400, "No code provided"), [])
  else
    let language := detect_language_with_llm d.llmDetect code
    if language = "unknown" then
      (Except.error (400, "Unsupported or undetectable language"), [])
    else
      let staticPart : List (String × String) × List String :=
        if language = "python" then ((run_static_analysis d.pyO code).1, ["static_analysis"])
        else if language = "c" || language = "cpp" then
          ((run_c_static_analysis d.cO (language = "cpp") code).1, ["static_analysis"])
        else ([], [])
      match run_in_docker d.eO code language with
      | Except.error e => (Except.ok (Except.error e), staticPart.2 ++ ["execution"])
      | Except.ok runtime =>
        (Except.ok (Except.ok ⟨language, staticPart.1, runtime,
            ai_fix_agent d.llmFix code staticPart.1 runtime language⟩),
         staticPart.2 ++ ["execution", "synthesis"])

/-! ## Repository-scope processing (src/backend/app.py, `analyze_repo`)

One `RepoFile` describes a file met by the walk together with the oracles
of its per-file pipeline: `readRaises` is an exception while opening or
reading the file, `analysisRaises` an unexpected exception anywhere later
in that file's `try` body (detection itself catches all its exceptions and
cannot raise).  A walk entry is produced only for supported extensions; a
raising file records an error entry for its relative path and the walk
continues. -/

structure RepoFile where
  relPath : String
  ext : String
  code : String
  readRaises : Option String
  detectO : Option String
  analysisRaises : Option String
  pyO : PyOracle
  cO : COracle
  eO : ExecOracle
  aiO : Option String

/-- The supported-extension table of the source. -/
def SUPPORTED_EXTENSIONS : List (String × String) :=
  [(".py", "python"), (".java", "java"), (".c", "c"), (".cpp", "cpp")]

/-- Lookup of an extension in the supported table. -/
def supportedLangOfExt (e : String) : Option String := lookupStr SUPPORTED_EXTENSIONS e

/-- The resolved language of one walked file. -/
def fileLang (f : RepoFile) : String := detect_language_with_llm f.detectO f.code

/-- A value of the per-path result mapping: a full analysis record or an
`{error: message}` entry. -/
inductive RepoEntry : Type where
  | ok : AnalysisRecord → RepoEntry
  | err : String → RepoEntry

/-- The per-file pipeline body shared with the single-submission endpoint;
an exception from the execution step (the java fallback's `re.error`)
propagates as `Except.error`. -/
def pipelineRecord (f : RepoFile) (language : String) : Except String AnalysisRecord :=
  let issues :=
    if language = "python" then (run_static_analysis f.pyO f.code).1
    else if language = "c" || language = "cpp" then
      (run_c_static_analysis f.cO (language = "cpp") f.code).1
    else []
  match run_in_docker f.eO f.code language with
  | Except.error e => Except.error e
  | Except.ok runtime =>
    Except.ok ⟨language, issues, runtime, ai_fix_agent f.aiO f.code issues runtime language⟩

/-- The first exception raised inside one file's `try` body, if any: a read
exception, then an oracle-injected exception from an external interaction
(which pre-empts the rest of the pipeline), then the modelled `re.error` of
the java fallback path. -/
def raisesOf (f : RepoFile) : Option String :=
  match f.readRaises with
  | some m => some m
  | none =>
    match f.analysisRaises with
    | some m => some m
    | none =>
      match pipelineRecord f (fileLang f) with
      | Except.error m => some m
      | Except.ok _ => none

/-- Processing of a single walked file: skip unsupported extensions; an
exception while reading yields an error entry; an `unknown` language is
skipped with `continue`; an exception later in the pipeline — injected by
the oracle or raised by the modelled execution step — yields an error
entry; otherwise a full record is stored under the relative path. -/
def processFile (f : RepoFile) : Option (String × RepoEntry) :=
  match supportedLangOfExt f.ext with
  | none => none
  | some _ =>
    match f.readRaises with
    | some m => some (f.relPath, RepoEntry.err m)
    | none =>
      if fileLang f = "unknown" then none
      else
        match f.analysisRaises with
        | some m => some (f.relPath, RepoEntry.err m)
        | none =>
          match pipelineRecord f (fileLang f) with
          | Except.error m => some (f.relPath, RepoEntry.err m)
          | Except.ok r => some (f.relPath, RepoEntry.ok r)

/-- The result mapping of `analyze_repo` over the walked files, in walk
order. -/
def analyzeRepoResults : List RepoFile → List (String × RepoEntry)
  | [] => []
  | f :: fs =>
    match processFile f with
    | some p => p :: analyzeRepoResults fs
    | none => analyzeRepoResults fs

/-- Is a mapping value an error entry? -/
def entryIsErr : String × RepoEntry → Bool
  | (_, RepoEntry.err _) => true
  | (_, RepoEntry.ok _) => false

/-- Is a mapping value a full analysis record? -/
def entryIsOk : String × RepoEntry → Bool
  | (_, RepoEntry.ok _) => true
  | (_, RepoEntry.err _) => false

/-- Count of mapping values satisfying a predicate. -/
def countEntries (p : String × RepoEntry → Bool) : List (String × RepoEntry) → Nat
  | [] => 0
  | e :: es => (if p e then 1 else 0) + countEntries p es

/-- Count of walked files whose pipeline raises. -/
def countRaising : List RepoFile → Nat
  | [] => 0
  | f :: fs => (if (raisesOf f).isSome then 1 else 0) + countRaising fs

/-! ## Basic lemmas about the string helpers and the engine -/

theorem startsList_iff (p : List Char) : ∀ s, startsList p s = true ↔ ∃ r, s = p ++ r := by
  induction p with
  | nil =>
    intro s
    simp [startsList]
  | cons a as ih =>
    intro s
    cases s with
    | nil =>
      simp [startsList]
    | cons b bs =>
      simp only [startsList, Bool.and_eq_true, beq_iff_eq, ih bs]
      constructor
      · rintro ⟨rfl, r, rfl⟩
        exact ⟨r, rfl⟩
      · rintro ⟨r, h⟩
        rw [List.cons_append] at h
        cases h
        exact ⟨rfl, r, rfl⟩

theorem containsList_iff (sub : List Char) :
    ∀ s, containsList sub s = true ↔ ∃ l r, s = l ++ (sub ++ r) := by
  intro s
  induction s with
  | nil =>
    simp only [containsList, startsList_iff]
    constructor
    · rintro ⟨r, h⟩
      exact ⟨[], r, h⟩
    · rintro ⟨l, r, h⟩
      cases l with
      | nil => exact ⟨r, h⟩
      | cons x xs => simp at h
  | cons c t ih =>
    simp only [containsList, Bool.or_eq_true, startsList_iff, ih]
    constructor
    · rintro (⟨r, h⟩ | ⟨l, r, h⟩)
      · exact ⟨[], r, h⟩
      · exact ⟨c :: l, r, by rw [h, List.cons_append]⟩
    · rintro ⟨l, r, h⟩
      cases l with
      | nil => exact Or.inl ⟨r, h⟩
      | cons x xs =>
        rw [List.cons_append] at h
        cases h
        exact Or.inr ⟨xs, r, rfl⟩

theorem containsList_append_left {sub l : List Char} (r : List Char)
    (h : containsList sub l = true) : containsList sub (l ++ r) = true := by
  rcases (containsList_iff sub l).mp h with ⟨a, b, rfl⟩
  exact (containsList_iff sub _).mpr ⟨a, b ++ r, by simp⟩

theorem RE.prefixHit_append (r : RE) :
    ∀ a t, r.fullMatch a = true → r.prefixHit (a ++ t) = true := by
  intro a
  induction a generalizing r with
  | nil =>
    intro t h
    cases t with
    | nil => exact h
    | cons c s =>
      simp only [RE.fullMatch] at h
      simp [RE.prefixHit, h]
  | cons c a' ih =>
    intro t h
    simp only [RE.fullMatch] at h
    simp [RE.prefixHit, ih (r.deriv c) t h]

theorem RE.reSearch_append (r : RE) :
    ∀ l s, r.prefixHit s = true → r.reSearch (l ++ s) = true := by
  intro l
  induction l with
  | nil =>
    intro s h
    cases s with
    | nil => exact h
    | cons c t => simp [RE.reSearch, h]
  | cons c l' ih =>
    intro s h
    simp [RE.reSearch, ih s h]

/-- If a code blob contains a substring `a ++ b` where the pattern fully
matches `a`, then `re.search` fires on the blob. -/
theorem RE.reSearch_of_contains (r : RE) (s a b : List Char)
    (h : containsList (a ++ b) s = true) (hm : r.fullMatch a = true) :
    r.reSearch s = true := by
  rcases (containsList_iff _ s).mp h with ⟨l, rr, rfl⟩
  rw [List.append_assoc a b rr]
  exact r.reSearch_append l _ (r.prefixHit_append a (b ++ rr) hm)

/-! ### String-shape lemmas used to tell findings apart -/

theorem str_append_assoc (a b c : String) : a ++ b ++ c = a ++ (b ++ c) := by
  obtain ⟨la⟩ := a
  obtain ⟨lb⟩ := b
  obtain ⟨lc⟩ := c
  show String.mk ((la ++ lb) ++ lc) = String.mk (la ++ (lb ++ lc))
  rw [List.append_assoc]

theorem append_data (a b : String) : (a ++ b).data = a.data ++ b.data := by
  obtain ⟨la⟩ := a
  obtain ⟨lb⟩ := b
  rfl

theorem str_append_ne_empty (p x : String) (h : p.data ≠ []) : p ++ x ≠ "" := by
  intro he
  apply h
  have : (p ++ x).data = ("" : String).data := by rw [he]
  rw [append_data] at this
  exact (List.append_eq_nil.mp this).1

theorem uninit_head_char (x : String) :
    ("Potentially uninitialized variables: " ++ x).data.get? 9 = some 'l' := by
  obtain ⟨xd⟩ := x
  rfl

theorem uninitMsg_ne (names : List String) (m : String)
    (h : m.data.get? 9 ≠ some 'l') : uninitMsg names ≠ m := by
  intro he
  apply h
  rw [← he]
  exact uninit_head_char _

theorem oob_head_char (x : String) :
    ("Potential array out of bounds: " ++ x).data.get? 10 = some 'a' := by
  obtain ⟨xd⟩ := x
  rfl

theorem oobMsgStr_ne (n i s m : String) (h : m.data.get? 10 ≠ some 'a') :
    oobMsgStr n i s ≠ m := by
  intro he
  apply h
  rw [← he]
  exact oob_head_char _

theorem mem_cond_singleton {b : Bool} {a x : String} :
    (a ∈ if b then [x] else []) ↔ (b = true ∧ a = x) := by
  cases b <;> simp

theorem mem_cond_nil {b : Bool} {a x : String} :
    (a ∈ if b then [] else [x]) ↔ (b = false ∧ a = x) := by
  cases b <;> simp

theorem oobIdxMsgs_shape (d : String × String) :
    ∀ l a, a ∈ oobIdxMsgs d l → ∃ i, a = oobMsgStr d.1 i d.2 := by
  intro l
  induction l with
  | nil => intro a h; simp [oobIdxMsgs] at h
  | cons idx rest ih =>
    intro a h
    rcases List.mem_append.mp h with h1 | h2
    · rcases mem_cond_singleton.mp h1 with ⟨_, rfl⟩
      exact ⟨String.mk idx, rfl⟩
    · exact ih a h2

theorem oobMsgs_shape (code : String) :
    ∀ a ∈ oobMsgs code, ∃ n i s, a = oobMsgStr n i s := by
  unfold oobMsgs
  generalize arrayDecls code = ds
  induction ds with
  | nil => intro a h; simp [oobAux] at h
  | cons d rest ih =>
    intro a h
    rcases List.mem_append.mp h with h1 | h2
    · unfold oobOne at h1
      split at h1
      · simp at h1
      · rcases oobIdxMsgs_shape d _ a h1 with ⟨i, rfl⟩
        exact ⟨d.1, i, d.2, rfl⟩
    · exact ih a h2

/-- Membership of the memory-leak finding in the conceptual scan is exactly
the source's substring condition. -/
theorem memLeak_mem_iff (code : String) :
    memLeakMsg ∈ conceptualErrors code ↔
      (pyIn "malloc" code && !(pyIn "free" code)) = true := by
  constructor
  · intro h
    rcases List.mem_append.mp h with h1 | h
    · exact absurd (mem_cond_singleton.mp h1).2 (by decide)
    rcases List.mem_append.mp h with h2 | h
    · exact (mem_cond_singleton.mp h2).1
    rcases List.mem_append.mp h with h3 | h
    · rcases mem_cond_nil.mp h3 with ⟨_, heq⟩
      exact absurd heq.symm (uninitMsg_ne _ _ (by decide))
    rcases List.mem_append.mp h with h4 | h
    · exact absurd (mem_cond_singleton.mp h4).2 (by decide)
    rcases List.mem_append.mp h with h5 | h
    · exact absurd (mem_cond_singleton.mp h5).2 (by decide)
    rcases List.mem_append.mp h with h6 | h7
    · exact absurd (mem_cond_singleton.mp h6).2 (by decide)
    · rcases oobMsgs_shape code _ h7 with ⟨n, i, s, heq⟩
      exact absurd heq.symm (oobMsgStr_ne n i s _ (by decide))
  · intro hb
    refine List.mem_append.mpr (Or.inr (List.mem_append.mpr (Or.inl ?_)))
    exact mem_cond_singleton.mpr ⟨hb, rfl⟩

/-- Membership of the infinite-loop finding in the conceptual scan is
exactly the source's `re.search` condition. -/
theorem infLoop_mem_iff (code : String) :
    infLoopMsg ∈ conceptualErrors code ↔ reMatch infPat code = true := by
  constructor
  · intro h
    rcases List.mem_append.mp h with h1 | h
    · exact absurd (mem_cond_singleton.mp h1).2 (by decide)
    rcases List.mem_append.mp h with h2 | h
    · exact absurd (mem_cond_singleton.mp h2).2 (by decide)
    rcases List.mem_append.mp h with h3 | h
    · rcases mem_cond_nil.mp h3 with ⟨_, heq⟩
      exact absurd heq.symm (uninitMsg_ne _ _ (by decide))
    rcases List.mem_append.mp h with h4 | h
    · exact absurd (mem_cond_singleton.mp h4).2 (by decide)
    rcases List.mem_append.mp h with h5 | h
    · exact (mem_cond_singleton.mp h5).1
    rcases List.mem_append.mp h with h6 | h7
    · exact absurd (mem_cond_singleton.mp h6).2 (by decide)
    · rcases oobMsgs_shape code _ h7 with ⟨n, i, s, heq⟩
      exact absurd heq.symm (oobMsgStr_ne n i s _ (by decide))
  · intro hb
    refine List.mem_append.mpr (Or.inr (List.mem_append.mpr (Or.inr
      (List.mem_append.mpr (Or.inr (List.mem_append.mpr (Or.inr
       (List.mem_append.mpr (Or.inl ?_)))))))))
    exact mem_cond_singleton.mpr ⟨hb, rfl⟩

/-! ## Claim C3 -/

/-- C3: the regex fallback detector checks python markers first, then java,
then C++ markers, then C markers, and when no rule matches it returns
"python"; it never returns "unknown". -/
theorem c3_regex_detection_order (code : String) :
    detect_language_with_regex code ≠ "unknown" ∧
    (pythonMarkers code = true → detect_language_with_regex code = "python") ∧
    (pythonMarkers code = false → javaMarkers code = true →
      detect_language_with_regex code = "java") ∧
    (pythonMarkers code = false → javaMarkers code = false → cppMarkers code = true →
      detect_language_with_regex code = "cpp") ∧
    (pythonMarkers code = false → javaMarkers code = false → cppMarkers code = false →
      cMarkers code = true → detect_language_with_regex code = "c") ∧
    (pythonMarkers code = false → javaMarkers code = false → cppMarkers code = false →
      cMarkers code = false → detect_language_with_regex code = "python") := by
  unfold detect_language_with_regex
  cases hp : pythonMarkers code <;> cases hj : javaMarkers code <;>
    cases hcp : cppMarkers code <;> cases hc : cMarkers code <;> decide

/-- Witness for C3: an input matching none of the rules resolves to python. -/
theorem c3_witness : detect_language_with_regex "@@@" = "python" :=
  (c3_regex_detection_order "@@@").2.2.2.2.2 (by decide) (by decide) (by decide) (by decide)

/-! ## Claim C6 -/

/-- C6: a C snippet containing `malloc` and no `free` always carries the
memory-leak finding in the conceptual scan; with a `free` present, the
memory-leak finding is absent. -/
theorem c6_memory_leak_rule (code : String) :
    (pyIn "malloc" code = true → pyIn "free" code = false →
      memLeakMsg ∈ conceptualErrors code) ∧
    (pyIn "free" code = true → memLeakMsg ∉ conceptualErrors code) := by
  constructor
  · intro h1 h2
    exact (memLeak_mem_iff code).mpr (by rw [h1, h2]; rfl)
  · intro h1 hmem
    have hb := (memLeak_mem_iff code).mp hmem
    rw [h1] at hb
    simp at hb

/-- Witness for C6 at concrete snippets. -/
theorem c6_witness :
    memLeakMsg ∈ conceptualErrors "x = malloc(4);" ∧
    memLeakMsg ∉ conceptualErrors "x = malloc(4); free(x);" :=
  ⟨(c6_memory_leak_rule "x = malloc(4);").1 (by decide) (by decide),
   (c6_memory_leak_rule "x = malloc(4); free(x);").2 (by decide)⟩

/-! ## Claim C7 -/

/-- C7: every C snippet containing the text `for(;;)` carries the
infinite-loop finding, and the finding is absent for a snippet whose only
loop is `for(int i=0;i<10;i++)`. -/
theorem c7_infinite_loop_rule :
    (∀ code : String, pyIn "for(;;)" code = true → infLoopMsg ∈ conceptualErrors code) ∧
    infLoopMsg ∉ conceptualErrors "for(int i=0;i<10;i++) s = s + i;" := by
  constructor
  · intro code h
    apply (infLoop_mem_iff code).mpr
    unfold pyIn at h
    have hdecomp : ("for(;;)").data = ("for(;;").data ++ [')'] := by decide
    rw [hdecomp] at h
    exact RE.reSearch_of_contains infPat code.data _ _ h (by decide)
  · intro hmem
    have hb := (infLoop_mem_iff _).mp hmem
    have hf : reMatch infPat "for(int i=0;i<10;i++) s = s + i;" = false := by decide
    rw [hf] at hb
    simp at hb

/-- Witness for C7 at a concrete snippet. -/
theorem c7_witness : infLoopMsg ∈ conceptualErrors "while(1) x; for(;;) y;" :=
  c7_infinite_loop_rule.1 "while(1) x; for(;;) y;" (by decide)

/-! ## Claim C4 -/

/-- The header line each fallback-analysis payload starts with. -/
def fallbackHeader (language : String) : String :=
  if language = "python" then "Python code analysis (without execution):\n"
  else if language = "java" then "Java code analysis (without execution):\n"
  else pyUpper language ++ " code analysis (without execution):\n"

theorem pyIn_of_head (sub A rest : String) (h : containsList sub.data A.data = true) :
    pyIn sub (A ++ rest) = true := by
  unfold pyIn
  rw [append_data]
  exact containsList_append_left _ h

/-- A concrete execution oracle whose capability flag is false. -/
def execOracleOffC4 : ExecOracle := ⟨false, false, false, none, "", none⟩

/-- The java branch raises whenever both substring guards hold. -/
theorem run_code_fallback_java_raises (parse : Option String) (code : String)
    (hn : pyIn "new" code = true) (hnull : pyIn "= null" code = true) :
    run_code_fallback parse code "java" = Except.error javaLeakCheckError := by
  unfold run_code_fallback javaFallbackBody
  rw [hn, hnull]
  rfl

/-- On the non-raising paths the fallback payload is its header followed by
the per-language warning lines. -/
theorem run_code_fallback_shape (parse : Option String) (code language : String)
    (h : language = "python" ∨ language = "java" ∨ language = "c" ∨ language = "cpp")
    (hj : language = "java" → (pyIn "new" code && pyIn "= null" code) = false) :
    ∃ rest, run_code_fallback parse code language =
      Except.ok (fallbackHeader language ++ rest) := by
  rcases h with rfl | rfl | rfl | rfl
  · refine ⟨pyFallbackTail parse code, ?_⟩
    show Except.ok (fallbackWrap (pyFallbackBody parse code)) = _
    unfold fallbackWrap pyFallbackBody
    rw [if_neg (str_append_ne_empty _ _ (by decide))]
    rfl
  · have hg := hj rfl
    refine ⟨javaFallbackTail code, ?_⟩
    show (match javaFallbackBody code with
          | Except.error e => Except.error e
          | Except.ok result => Except.ok (fallbackWrap result)) = _
    unfold javaFallbackBody
    rw [hg]
    show Except.ok
      (fallbackWrap ("Java code analysis (without execution):\n" ++ javaFallbackTail code)) = _
    unfold fallbackWrap
    rw [if_neg (str_append_ne_empty _ _ (by decide))]
    rfl
  · refine ⟨cFallbackTail code, ?_⟩
    show Except.ok (fallbackWrap (cFallbackBody code "c")) = _
    unfold fallbackWrap
    unfold cFallbackBody
    rw [if_neg (str_append_ne_empty _ _ (by decide))]
    show _ = Except.ok ((pyUpper "c" ++ " code analysis (without execution):\n")
      ++ cFallbackTail code)
    rw [str_append_assoc]
  · refine ⟨cFallbackTail code, ?_⟩
    show Except.ok (fallbackWrap (cFallbackBody code "cpp")) = _
    unfold fallbackWrap
    unfold cFallbackBody
    rw [if_neg (str_append_ne_empty _ _ (by decide))]
    show _ = Except.ok ((pyUpper "cpp" ++ " code analysis (without execution):\n")
      ++ cFallbackTail code)
    rw [str_append_assoc]

/-- Counterexample to C4 as stated: with the capability flag false and a
java snippet containing both `new` and `= null`, the execute operation does
not return a labelled fallback payload — the fallback's leak check compiles
an invalid backreference and the `re.error` propagates out. -/
theorem c4_counterexample :
    execOracleOffC4.dockerAvailable = false ∧
    run_in_docker execOracleOffC4 "A a = new A(); a = null;" "java" =
      Except.error javaLeakCheckError :=
  ⟨rfl, rfl⟩

/-- C4 amended: with the capability flag false, `run_in_docker` hands the
request to `run_code_fallback`; for python, c and cpp on every input, and
for java inputs lacking `new` or `= null`, the result is a payload starting
with a header labelling it as analysis without execution; for java inputs
containing both substrings the fallback raises `re.error` instead of
returning a payload. -/
theorem c4_amended_fallback_when_engine_off (o : ExecOracle) (code language : String)
    (hoff : o.dockerAvailable = false)
    (hlang : language = "python" ∨ language = "java" ∨ language = "c" ∨ language = "cpp") :
    run_in_docker o code language = run_code_fallback o.pyParse code language ∧
    (language = "java" → pyIn "new" code = true → pyIn "= null" code = true →
      run_in_docker o code language = Except.error javaLeakCheckError) ∧
    ((language = "java" → (pyIn "new" code && pyIn "= null" code) = false) →
      ∃ rest, run_in_docker o code language = Except.ok (fallbackHeader language ++ rest) ∧
        pyIn "without execution" (fallbackHeader language ++ rest) = true) := by
  have heq : run_in_docker o code language = run_code_fallback o.pyParse code language := by
    unfold run_in_docker
    rw [hoff]
    rfl
  refine ⟨heq, ?_, ?_⟩
  · intro hjava hn hnull
    subst hjava
    rw [heq]
    exact run_code_fallback_java_raises o.pyParse code hn hnull
  · intro hguard
    rcases run_code_fallback_shape o.pyParse code language hlang hguard with ⟨rest, hshape⟩
    refine ⟨rest, heq.trans hshape, ?_⟩
    rcases hlang with rfl | rfl | rfl | rfl <;>
      exact pyIn_of_head _ _ _ (by decide)

/-- Witness for the amended C4: the payload case at a python input and the
raising case at a java input, both with the capability flag false. -/
theorem c4_amended_witness :
    (∃ rest, run_in_docker execOracleOffC4 "x" "python" =
        Except.ok (fallbackHeader "python" ++ rest) ∧
      pyIn "without execution" (fallbackHeader "python" ++ rest) = true) ∧
    run_in_docker execOracleOffC4 "A a = new A(); a = null;" "java" =
      Except.error javaLeakCheckError :=
  ⟨(c4_amended_fallback_when_engine_off execOracleOffC4 "x" "python" rfl (Or.inl rfl)).2.2
      (fun h => absurd h (by decide)),
   (c4_amended_fallback_when_engine_off execOracleOffC4 "A a = new A(); a = null;" "java" rfl
      (Or.inr (Or.inl rfl))).2.1 rfl (by decide) (by decide)⟩

/-! ## Claim C2 -/

/-- A concrete execution oracle: the engine is reachable, setup succeeds,
and the container-execution step raises. -/
def eoCrash : ExecOracle := ⟨true, false, false, some "boom", "", none⟩

/-- Counterexample to C2 as stated: with the engine reachable and the
container-execution step raising, `run_in_docker` returns a runtime-error
payload, not the fallback payload. -/
theorem c2_counterexample :
    eoCrash.dockerAvailable = true ∧ eoCrash.containerRaises = some "boom" ∧
    run_in_docker eoCrash "print(1)" "python" = Except.ok "Runtime error: boom" ∧
    run_in_docker eoCrash "print(1)" "python" ≠
      run_code_fallback eoCrash.pyParse "print(1)" "python" := by
  refine ⟨rfl, rfl, rfl, ?_⟩
  intro h
  exact absurd (Except.ok.inj h) (by decide)

/-- C2 amended: with the engine reachable, an exception in engine-client
construction or workspace setup transfers control to the fallback, but an
exception inside container creation/execution is caught locally and
returned as a `Runtime error:` payload. -/
theorem c2_amended_fallback_paths (o : ExecOracle) (code language : String) :
    (o.dockerAvailable = true → (o.fromEnvRaises = true ∨ o.setupRaises = true) →
      run_in_docker o code language = run_code_fallback o.pyParse code language) ∧
    (o.dockerAvailable = true → o.fromEnvRaises = false → o.setupRaises = false →
      (language = "python" ∨ language = "java" ∨ language = "c" ∨ language = "cpp") →
      ∀ m, o.containerRaises = some m →
        run_in_docker o code language = Except.ok ("Runtime error: " ++ m)) := by
  constructor
  · intro hav hre
    rcases hre with h | h
    · unfold run_in_docker
      rw [hav, h]
      rfl
    · unfold run_in_docker
      rw [hav, h, Bool.or_true]
      rfl
  · intro hav h1 h2 hlang m hm
    rcases hlang with rfl | rfl | rfl | rfl <;>
      · unfold run_in_docker
        rw [hav, h1, h2, hm]
        rfl

/-- Witness for the amended C2. -/
theorem c2_amended_witness :
    run_in_docker eoCrash "x" "python" = Except.ok ("Runtime error: " ++ "boom") :=
  (c2_amended_fallback_paths eoCrash "x" "python").2 rfl rfl rfl (Or.inl rfl) "boom" rfl

/-! ## Claim C1 -/

/-- A concrete tool oracle whose cppcheck invocation raises. -/
def cOracleCrash : COracle :=
  ⟨true, some "boom", "", false, none, "", false, false, none, false, "", none, ""⟩

/-- Counterexample to C1 as stated: when the cppcheck invocation raises,
the C dispatcher returns with its temp source file still existing. -/
theorem c1_counterexample :
    cOracleCrash.cppcheckAvailable = true ∧ cOracleCrash.cppcheckRaises = some "boom" ∧
    (run_c_static_analysis cOracleCrash false "int main();").2 = ["cppcheck_tmp"] :=
  ⟨rfl, rfl, rfl⟩

/-- No tool invocation of the C/C++ dispatcher raised. -/
def cleanToolRun (o : COracle) : Prop :=
  (o.cppcheckAvailable = true → o.cppcheckRaises = none) ∧
  (o.clangAvailable = true → o.clangRaises = none) ∧
  (o.valgrindAvailable = true → o.isWindows = false →
    o.compileRaises = none ∧ (o.compileOk = true → o.valgrindRaises = none))

theorem cppcheckStep_leak (o : COracle) :
    (cppcheckStep o).2 = [] ↔ (o.cppcheckAvailable = true → o.cppcheckRaises = none) := by
  cases hA : o.cppcheckAvailable <;> cases hR : o.cppcheckRaises <;>
    simp [cppcheckStep, hA, hR]

theorem clangStep_leak (o : COracle) :
    (clangStep o).2 = [] ↔ (o.clangAvailable = true → o.clangRaises = none) := by
  cases hA : o.clangAvailable <;> cases hR : o.clangRaises <;>
    simp [clangStep, hA, hR]

theorem valgrindStep_leak (o : COracle) :
    (valgrindStep o).2 = [] ↔
      (o.valgrindAvailable = true → o.isWindows = false →
        o.compileRaises = none ∧ (o.compileOk = true → o.valgrindRaises = none)) := by
  cases hA : o.valgrindAvailable <;> cases hW : o.isWindows <;>
    cases hCR : o.compileRaises <;> cases hOK : o.compileOk <;>
      cases hVR : o.valgrindRaises <;>
        simp [valgrindStep, hA, hW, hCR, hOK, hVR]

/-- C1 amended: the Python dispatcher's temp file is removed on every exit
path, and the C/C++ dispatcher removes all temp artifacts exactly when none
of its tool invocations raises (the valgrind 5-second timeout included); a
raising invocation skips the cleanup of that layer's artifacts. -/
theorem c1_amended_leak_discipline (pyO : PyOracle) (o : COracle) (is_cpp : Bool)
    (codePy codeC : String) :
    (run_static_analysis pyO codePy).2 = [] ∧
    ((run_c_static_analysis o is_cpp codeC).2 = [] ↔ cleanToolRun o) := by
  refine ⟨rfl, ?_⟩
  show (cppcheckStep o).2 ++ ((clangStep o).2 ++ (valgrindStep o).2) = [] ↔ _
  rw [List.append_eq_nil, List.append_eq_nil]
  unfold cleanToolRun
  rw [cppcheckStep_leak, clangStep_leak, valgrindStep_leak]

/-- A concrete tool oracle with no tool available. -/
def cOracleNone : COracle :=
  ⟨false, none, "", false, none, "", false, false, none, false, "", none, ""⟩

/-- A concrete Python-layer oracle. -/
def pyOracleNone : PyOracle := ⟨none, "", none, ""⟩

/-- Witness for the amended C1. -/
theorem c1_amended_witness : (run_c_static_analysis cOracleNone false "x").2 = [] :=
  (c1_amended_leak_discipline pyOracleNone cOracleNone false "x" "x").2.mpr
    (by unfold cleanToolRun; decide)

/-! ## Claim C10 -/

theorem str_data_nil (s : String) : s.data = [] ↔ s = "" := by
  obtain ⟨d⟩ := s
  constructor
  · intro h
    rw [show d = [] from h]
  · intro h
    rw [h]

theorem joinSep_nonempty (sep : String) (l : List String) (hne : l ≠ [])
    (hall : ∀ m ∈ l, m ≠ "") : joinSep sep l ≠ "" := by
  cases l with
  | nil => exact absurd rfl hne
  | cons m rest =>
    cases rest with
    | nil => exact hall m (by simp)
    | cons y t =>
      have hexp : joinSep sep (m :: y :: t) = m ++ sep ++ joinSep sep (y :: t) := rfl
      rw [hexp]
      intro h
      have hdata : (m ++ sep ++ joinSep sep (y :: t)).data = [] := by rw [h]
      rw [append_data, append_data] at hdata
      have h1 := (List.append_eq_nil.mp (List.append_eq_nil.mp hdata).1).1
      exact hall m (by simp) ((str_data_nil m).mp h1)

theorem conceptualErrors_all_ne (code : String) :
    ∀ m ∈ conceptualErrors code, m ≠ "" := by
  intro m hm
  rcases List.mem_append.mp hm with h1 | h
  · rw [(mem_cond_singleton.mp h1).2]; decide
  rcases List.mem_append.mp h with h2 | h
  · rw [(mem_cond_singleton.mp h2).2]; decide
  rcases List.mem_append.mp h with h3 | h
  · rw [(mem_cond_nil.mp h3).2]
    show "Potentially uninitialized variables: " ++ joinSep ", " (uninitNames code) ≠ ""
    exact str_append_ne_empty _ _ (by decide)
  rcases List.mem_append.mp h with h4 | h
  · rw [(mem_cond_singleton.mp h4).2]; decide
  rcases List.mem_append.mp h with h5 | h
  · rw [(mem_cond_singleton.mp h5).2]; decide
  rcases List.mem_append.mp h with h6 | h7
  · rw [(mem_cond_singleton.mp h6).2]; decide
  · rcases oobMsgs_shape code _ h7 with ⟨n, i, s, rfl⟩
    show "Potential array out of bounds: " ++ _ ≠ ""
    exact str_append_ne_empty _ _ (by decide)

theorem conceptualValue_ne (code : String) : conceptualValue code ≠ "" := by
  unfold conceptualValue
  split
  · decide
  · next hne =>
    have hl : conceptualErrors code ≠ [] := by
      intro h0
      rw [h0] at hne
      simp at hne
    exact joinSep_nonempty "\n" _ hl (conceptualErrors_all_ne code)

theorem cppcheckStep_val (o : COracle) : (cppcheckStep o).1 ≠ "" := by
  unfold cppcheckStep
  cases hA : o.cppcheckAvailable
  · show "Tool not available (cppcheck is not installed or not in PATH)" ≠ ""
    decide
  · cases hR : o.cppcheckRaises
    · show (if o.cppcheckStderr = "" then "No issues detected by cppcheck"
        else o.cppcheckStderr) ≠ ""
      by_cases hS : o.cppcheckStderr = ""
      · rw [if_pos hS]; decide
      · rw [if_neg hS]; exact hS
    · next e =>
      show "Error running cppcheck: " ++ e ≠ ""
      exact str_append_ne_empty _ _ (by decide)

theorem clangStep_val (o : COracle) : (clangStep o).1 ≠ "" := by
  unfold clangStep
  cases hA : o.clangAvailable
  · show "Tool not available (clang/clang++ is not installed or not in PATH)" ≠ ""
    decide
  · cases hR : o.clangRaises
    · show (if o.clangStderr = "" then "No issues detected by clang static analyzer"
        else o.clangStderr) ≠ ""
      by_cases hS : o.clangStderr = ""
      · rw [if_pos hS]; decide
      · rw [if_neg hS]; exact hS
    · next e =>
      show "Error running clang static analyzer: " ++ e ≠ ""
      exact str_append_ne_empty _ _ (by decide)

theorem valgrindStep_val (o : COracle) : (valgrindStep o).1 ≠ "" := by
  unfold valgrindStep
  cases hA : o.valgrindAvailable <;> cases hW : o.isWindows
  · show "Tool not available (valgrind is not installed or not in PATH)" ≠ ""
    decide
  · show "Tool not available (valgrind does not work on Windows)" ≠ ""
    decide
  · cases hCR : o.compileRaises
    · cases hOK : o.compileOk
      · show "Compilation failed: " ++ o.compileStderr ≠ ""
        exact str_append_ne_empty _ _ (by decide)
      · cases hVR : o.valgrindRaises
        · show (if o.valgrindStderr = "" then "No memory issues detected"
            else o.valgrindStderr) ≠ ""
          by_cases hS : o.valgrindStderr = ""
          · rw [if_pos hS]; decide
          · rw [if_neg hS]; exact hS
        · next e =>
          show "Error running valgrind: " ++ e ≠ ""
          exact str_append_ne_empty _ _ (by decide)
    · next e =>
      show "Error running valgrind: " ++ e ≠ ""
      exact str_append_ne_empty _ _ (by decide)
  · show "Tool not available (valgrind does not work on Windows)" ≠ ""
    decide

/-- C10: the C/C++ dispatcher's finding set always holds exactly the four
keys `conceptual_errors`, `cppcheck`, `clang_analyze`, `memory_analysis`,
in that order, each mapped to a non-empty report string. -/
theorem c10_findings_keys_total (o : COracle) (is_cpp : Bool) (code : String) :
    ((run_c_static_analysis o is_cpp code).1.map Prod.fst =
      ["conceptual_errors", "cppcheck", "clang_analyze", "memory_analysis"]) ∧
    ∀ p ∈ (run_c_static_analysis o is_cpp code).1, p.2 ≠ "" := by
  refine ⟨rfl, ?_⟩
  intro p hp
  have hps : p = ("conceptual_errors", conceptualValue code) ∨
      p = ("cppcheck", (cppcheckStep o).1) ∨
      p = ("clang_analyze", (clangStep o).1) ∨
      p = ("memory_analysis", (valgrindStep o).1) := by
    simpa [run_c_static_analysis] using hp
  rcases hps with rfl | rfl | rfl | rfl
  · exact conceptualValue_ne code
  · exact cppcheckStep_val o
  · exact clangStep_val o
  · exact valgrindStep_val o

/-- Witness for C10 at a concrete oracle and input. -/
theorem c10_witness :
    (("conceptual_errors", "No conceptual issues detected") ∈
      (run_c_static_analysis cOracleNone false "").1) ∧
    ("No conceptual issues detected" : String) ≠ "" :=
  ⟨by decide,
   (c10_findings_keys_total cOracleNone false "").2
     ("conceptual_errors", "No conceptual issues detected") (by decide)⟩

/-! ## Claim C8 -/

theorem dropWhile_all_nil (p : Char → Bool) (l : List Char) (h : l.all p = true) :
    l.dropWhile p = [] := by
  induction l with
  | nil => rfl
  | cons c t ih =>
    rw [List.all_cons, Bool.and_eq_true] at h
    rw [List.dropWhile_cons, if_pos h.1]
    exact ih h.2

theorem pyStrip_blank (code : String) (h : code.data.all pySpace = true) :
    pyStrip code = "" := by
  unfold pyStrip
  rw [dropWhile_all_nil pySpace code.data h]
  rfl

/-- C8: a request whose code is empty or all whitespace is rejected with a
400 before any pipeline stage runs (empty effect log), and a request whose
language resolves to `unknown` is rejected with a 400 before static
analysis, execution or synthesis runs. -/
theorem c8_reject_paths (d : AnalyzeDeps) (code : String) :
    (code.data.all pySpace = true →
      analyze d code = (Except.error (400, "No code provided"), [])) ∧
    (detect_language_with_llm d.llmDetect code = "unknown" →
      ∃ msg, analyze d code = (Except.error (400, msg), [])) := by
  constructor
  · intro h
    unfold analyze
    rw [if_pos (pyStrip_blank code h)]
  · intro h
    by_cases hb : pyStrip code = ""
    · exact ⟨"No code provided", by unfold analyze; rw [if_pos hb]⟩
    · refine ⟨"Unsupported or undetectable language", ?_⟩
      unfold analyze
      rw [if_neg hb, if_pos h]

/-- A concrete dependency bundle whose detection backend answers with an
unsupported language name. -/
def depsKlingon : AnalyzeDeps :=
  ⟨some "klingon", pyOracleNone, cOracleNone, ⟨false, false, false, none, "", none⟩, none⟩

/-- Witness for C8. -/
theorem c8_witness :
    analyze depsKlingon " \n " = (Except.error (400, "No code provided"), []) ∧
    ∃ msg, analyze depsKlingon "qqq" = (Except.error (400, msg), []) :=
  ⟨(c8_reject_paths depsKlingon " \n ").1 (by decide),
   (c8_reject_paths depsKlingon "qqq").2 (by decide)⟩

/-! ## Claims C5 and C9 -/

theorem analyzeRepoResults_cons (f : RepoFile) (fs : List RepoFile) :
    analyzeRepoResults (f :: fs) =
      match processFile f with
      | some p => p :: analyzeRepoResults fs
      | none => analyzeRepoResults fs := rfl

theorem processFile_path (f : RepoFile) (p : String × RepoEntry)
    (h : processFile f = some p) : p.1 = f.relPath := by
  unfold processFile at h
  repeat' split at h
  all_goals first
    | exact Option.noConfusion h
    | (cases h; rfl)

theorem processFile_char (f : RepoFile)
    (hext : (supportedLangOfExt f.ext).isSome = true)
    (hlang : fileLang f ≠ "unknown") :
    ∃ e, processFile f = some (f.relPath, e) ∧
      (entryIsErr (f.relPath, e) = (raisesOf f).isSome) ∧
      ∀ m, raisesOf f = some m → e = RepoEntry.err m := by
  unfold processFile raisesOf
  cases hs : supportedLangOfExt f.ext with
  | none => rw [hs] at hext; simp at hext
  | some lang =>
    cases hr : f.readRaises with
    | some m =>
      exact ⟨RepoEntry.err m, rfl, rfl, fun m' hm' => by cases hm'; rfl⟩
    | none =>
      rw [if_neg hlang]
      cases ha : f.analysisRaises with
      | some m =>
        exact ⟨RepoEntry.err m, rfl, rfl, fun m' hm' => by cases hm'; rfl⟩
      | none =>
        cases hp : pipelineRecord f (fileLang f) with
        | error m =>
          exact ⟨RepoEntry.err m, rfl, rfl, fun m' hm' => by cases hm'; rfl⟩
        | ok r =>
          exact ⟨RepoEntry.ok r, rfl, rfl, fun m' hm' => Option.noConfusion hm'⟩

theorem countEntries_ok_err (rs : List (String × RepoEntry)) :
    countEntries entryIsOk rs + countEntries entryIsErr rs = rs.length := by
  induction rs with
  | nil => rfl
  | cons p rest ih =>
    obtain ⟨path, e⟩ := p
    cases e <;> simp [countEntries, entryIsOk, entryIsErr] <;> omega

theorem repo_counts (files : List RepoFile)
    (hext : ∀ f ∈ files, (supportedLangOfExt f.ext).isSome = true)
    (hlang : ∀ f ∈ files, fileLang f ≠ "unknown") :
    (analyzeRepoResults files).length = files.length ∧
    countEntries entryIsErr (analyzeRepoResults files) = countRaising files := by
  induction files with
  | nil => exact ⟨rfl, rfl⟩
  | cons f fs ih =>
    obtain ⟨e, hpe, herr, _⟩ := processFile_char f (hext f (by simp)) (hlang f (by simp))
    have ih' := ih (fun g hg => hext g (by simp [hg])) (fun g hg => hlang g (by simp [hg]))
    rw [analyzeRepoResults_cons, hpe]
    constructor
    · simp [ih'.1]
    · show (if entryIsErr (f.relPath, e) then 1 else 0) +
        countEntries entryIsErr (analyzeRepoResults fs) =
        (if (raisesOf f).isSome then 1 else 0) + countRaising fs
      rw [herr, ih'.2]

theorem mem_keys_sub (files : List RepoFile) (x : String)
    (h : x ∈ (analyzeRepoResults files).map Prod.fst) :
    x ∈ files.map RepoFile.relPath := by
  induction files with
  | nil => simp [analyzeRepoResults] at h
  | cons f fs ih =>
    rw [analyzeRepoResults_cons] at h
    rw [List.map_cons]
    cases hp : processFile f with
    | none =>
      rw [hp] at h
      exact List.mem_cons_of_mem _ (ih h)
    | some p =>
      rw [hp, List.map_cons] at h
      rcases List.mem_cons.mp h with h1 | h2
      · rw [h1, processFile_path f p hp]
        exact List.mem_cons_self _ _
      · exact List.mem_cons_of_mem _ (ih h2)

theorem keys_nodup (files : List RepoFile)
    (h : (files.map RepoFile.relPath).Nodup) :
    ((analyzeRepoResults files).map Prod.fst).Nodup := by
  induction files with
  | nil => simp [analyzeRepoResults]
  | cons f fs ih =>
    rw [List.map_cons, List.nodup_cons] at h
    obtain ⟨hnotin, hrest⟩ := h
    rw [analyzeRepoResults_cons]
    cases hp : processFile f with
    | none => exact ih hrest
    | some p =>
      rw [List.map_cons]
      refine List.nodup_cons.mpr ⟨?_, ih hrest⟩
      intro hmem
      have hx := mem_keys_sub fs p.1 hmem
      rw [processFile_path f p hp] at hx
      exact hnotin hx

theorem mem_err_entry (files : List RepoFile)
    (hext : ∀ f ∈ files, (supportedLangOfExt f.ext).isSome = true)
    (hlang : ∀ f ∈ files, fileLang f ≠ "unknown") :
    ∀ f ∈ files, ∀ m, raisesOf f = some m →
      (f.relPath, RepoEntry.err m) ∈ analyzeRepoResults files := by
  induction files with
  | nil => intro f hf; cases hf
  | cons g fs ih =>
    intro f hf m hm
    rw [analyzeRepoResults_cons]
    rcases List.mem_cons.mp hf with rfl | hf'
    · obtain ⟨e, hpe, _, hforce⟩ :=
        processFile_char f (hext f (by simp)) (hlang f (by simp))
      rw [hpe, hforce m hm]
      exact List.mem_cons_self _ _
    · have htail := ih (fun g' hg' => hext g' (by simp [hg']))
        (fun g' hg' => hlang g' (by simp [hg'])) f hf' m hm
      cases hp : processFile g with
      | none => exact htail
      | some p => exact List.mem_cons_of_mem _ htail

/-- C5: when every walked file has a supported extension and a supported
language, and exactly one file's pipeline raises, the result mapping has
one entry per file with pairwise-distinct keys: exactly one error entry —
holding that exception's message under the failing path — and N-1 full
analysis records. -/
theorem c5_per_file_isolation (files : List RepoFile)
    (hext : ∀ f ∈ files, (supportedLangOfExt f.ext).isSome = true)
    (hlang : ∀ f ∈ files, fileLang f ≠ "unknown")
    (hnodup : (files.map RepoFile.relPath).Nodup)
    (hone : countRaising files = 1) :
    (analyzeRepoResults files).length = files.length ∧
    ((analyzeRepoResults files).map Prod.fst).Nodup ∧
    countEntries entryIsErr (analyzeRepoResults files) = 1 ∧
    countEntries entryIsOk (analyzeRepoResults files) = files.length - 1 ∧
    ∀ f ∈ files, ∀ m, raisesOf f = some m →
      (f.relPath, RepoEntry.err m) ∈ analyzeRepoResults files := by
  obtain ⟨hlen, hcnt⟩ := repo_counts files hext hlang
  refine ⟨hlen, keys_nodup files hnodup, ?_, ?_, mem_err_entry files hext hlang⟩
  · rw [hcnt, hone]
  · have hsum := countEntries_ok_err (analyzeRepoResults files)
    rw [hcnt, hone] at hsum
    omega

/-- A concrete execution oracle with the engine off. -/
def execOracleOff : ExecOracle := ⟨false, false, false, none, "", none⟩

/-- A concrete walked file whose pipeline succeeds. -/
def repoFileOk : RepoFile :=
  ⟨"a.py", ".py", "print(1)", none, some "python", none, pyOracleNone, cOracleNone,
   execOracleOff, some "fine"⟩

/-- A concrete walked file whose pipeline raises. -/
def repoFileBad : RepoFile :=
  ⟨"b.py", ".py", "x", none, some "python", some "boom", pyOracleNone, cOracleNone,
   execOracleOff, some "fine"⟩

/-- Witness for C5 on a concrete two-file batch with one failing file. -/
theorem c5_witness :
    (analyzeRepoResults [repoFileOk, repoFileBad]).length = 2 ∧
    countEntries entryIsErr (analyzeRepoResults [repoFileOk, repoFileBad]) = 1 ∧
    countEntries entryIsOk (analyzeRepoResults [repoFileOk, repoFileBad]) = 2 - 1 ∧
    ("b.py", RepoEntry.err "boom") ∈ analyzeRepoResults [repoFileOk, repoFileBad] := by
  have h := c5_per_file_isolation [repoFileOk, repoFileBad]
    (by decide) (by decide) (by decide) (by decide)
  exact ⟨h.1, h.2.2.1, h.2.2.2.1, h.2.2.2.2 repoFileBad (by simp) "boom" (by decide)⟩

theorem processFile_skip (f : RepoFile) (hread : f.readRaises = none)
    (hlang : fileLang f = "unknown") : processFile f = none := by
  unfold processFile
  cases hs : supportedLangOfExt f.ext
  · rfl
  · rw [hread]
    simp [hlang]

/-- C9: a supported-extension file that reads successfully but whose
detected language resolves to `unknown` is silently skipped — the result
mapping holds no entry at all under that file's path. -/
theorem c9_unknown_language_skipped (files : List RepoFile) (f : RepoFile)
    (hext : (supportedLangOfExt f.ext).isSome = true)
    (hread : f.readRaises = none) (hlang : fileLang f = "unknown")
    (hf : f ∈ files) (hnodup : (files.map RepoFile.relPath).Nodup) :
    ∀ e, (f.relPath, e) ∉ analyzeRepoResults files := by
  induction files with
  | nil => cases hf
  | cons g fs ih =>
    rw [List.map_cons, List.nodup_cons] at hnodup
    obtain ⟨hnotin, hrest⟩ := hnodup
    intro e hmem
    rw [analyzeRepoResults_cons] at hmem
    rcases List.mem_cons.mp hf with rfl | hf'
    · rw [processFile_skip f hread hlang] at hmem
      exact hnotin (mem_keys_sub fs _ (List.mem_map_of_mem Prod.fst hmem))
    · cases hp : processFile g with
      | none =>
        rw [hp] at hmem
        exact ih hf' hrest e hmem
      | some p =>
        rw [hp] at hmem
        rcases List.mem_cons.mp hmem with h1 | h2
        · have : f.relPath = g.relPath := by
            have := processFile_path g p hp
            rw [← h1] at this
            exact this.symm ▸ rfl
          rw [← this] at hnotin
          exact hnotin (List.mem_map_of_mem RepoFile.relPath hf')
        · exact ih hf' hrest e h2

/-- A concrete walked file whose language resolves to unknown. -/
def repoFileUnknown : RepoFile :=
  ⟨"u.py", ".py", "zzz", none, some "elvish", none, pyOracleNone, cOracleNone,
   execOracleOff, none⟩

/-- Witness for C9. -/
theorem c9_witness :
    ("u.py", RepoEntry.err "x") ∉ analyzeRepoResults [repoFileUnknown] :=
  c9_unknown_language_skipped [repoFileUnknown] repoFileUnknown (by decide) rfl (by decide)
    (by simp) (by simp) (RepoEntry.err "x")
